import Mathlib

/-!
Verification model of `src/index.js` of the crowdin-api client.

The module keeps two globals (`apiKey`, `baseUrl`), exposes `setKey` and
`setBasePath` to change them, and routes every other exported operation
through one of three helpers: `getApiCall`, `postApiCall` (both wrap the
HTTP exchange with `handleRequest`) and `getApiRequest` (which returns the
raw `request(url)` promise).  We embed the module shallowly: JS objects
become association lists, `JSON.parse` becomes an executable fuel-based
parser, promise rejection becomes `Except`, and the issued HTTP request is
reified as a `ReqSpec` value describing exactly the options handed to the
`request` library.
-/

deriving instance DecidableEq for Except

namespace Crowdin

/-- JSON values as produced by `JSON.parse`.  JSON numbers are modelled as
integers: the only numbers the client ever inspects are vendor error codes. -/
inductive Json where
| null : Json
| bool (b : Bool) : Json
| num (n : Int) : Json
| str (s : String) : Json
| arr (xs : List Json) : Json
| obj (fields : List (String × Json)) : Json
deriving Repr

/-- JS object property assignment `o[k] = v`: an existing key is updated in
place (keeping its position), a new key is appended last.  This is the
ordering JS objects maintain for string keys. -/
def objSet {α : Type} (o : List (String × α)) (k : String) (v : α) :
    List (String × α) :=
  if k ∈ o.map Prod.fst then
    o.map (fun p => if p.1 = k then (k, v) else p)
  else o ++ [(k, v)]

/-- JS property read on an object: first match (objects built with `objSet`
have unique keys). -/
def lookupObj {α : Type} : List (String × α) → String → Option α
| [], _ => none
| (k', v) :: rest, k => if k' = k then some v else lookupObj rest k

/-- `util._extend(target, source)` from `src/index.js` line 5: copies every
own property of `source` onto `target` (mutating `target` in JS) and returns
the target.  Properties are copied in `source`'s key order. -/
def extend {α : Type} (target source : List (String × α)) :
    List (String × α) :=
  source.foldl (fun acc p => objSet acc p.1 p.2) target

/-- JS string conversion of a parsed JSON value, as used by the `+`
concatenation in `throwError`. -/
def jsToString : Json → String
| Json.null => "null"
| Json.bool true => "true"
| Json.bool false => "false"
| Json.num n => toString n
| Json.str s => s
| Json.arr xs => String.intercalate "," (xs.attach.map (fun p => jsToString p.1))
| Json.obj _ => "[object Object]"
termination_by v => sizeOf v
decreasing_by
  have h := List.sizeOf_lt_of_mem p.2
  simp only [Json.arr.sizeOf_spec]
  omega

/-- JS string conversion where `none` stands for `undefined`. -/
def optToStr : Option Json → String
| none => "undefined"
| some v => jsToString v

/-! ### An executable model of `JSON.parse`

A recursive-descent parser over the character list, driven by a fuel
counter.  It covers the JSON fragment the vendor API uses: `null`, booleans,
integer numbers, strings with simple escapes, arrays and objects.  Duplicate
object keys overwrite, as `JSON.parse` assigns properties in order. -/

/-- Skip JSON whitespace. -/
def skipWs : List Char → List Char
| c :: cs =>
  if c = ' ' ∨ c = '\n' ∨ c = '\t' ∨ c = '\r' then skipWs cs else c :: cs
| [] => []

/-- Decode a string escape character. -/
def escChar (c : Char) : Char :=
  if c = 'n' then '\n'
  else if c = 't' then '\t'
  else if c = 'r' then '\r'
  else c

/-- Read the body of a JSON string after the opening quote, returning the
decoded characters and the rest after the closing quote. -/
def parseStrChars : List Char → Option (List Char × List Char)
| [] => none
| '"' :: rest => some ([], rest)
| '\\' :: c :: rest =>
  (parseStrChars rest).map (fun p => (escChar c :: p.1, p.2))
| c :: rest => (parseStrChars rest).map (fun p => (c :: p.1, p.2))

/-- Take a maximal run of decimal digits. -/
def takeDigits : List Char → List Char × List Char
| [] => ([], [])
| c :: cs =>
  if c.isDigit then
    let p := takeDigits cs
    (c :: p.1, p.2)
  else ([], c :: cs)

/-- Decimal value of a digit run. -/
def digitsToNat (ds : List Char) : Nat :=
  ds.foldl (fun a c => a * 10 + (c.toNat - '0'.toNat)) 0

/-- Parser mode: a plain value, the remaining items of an array, or the
remaining fields of an object. -/
inductive PMode where
| value : PMode
| arrRest (acc : List Json) : PMode
| objRest (acc : List (String × Json)) : PMode

/-- The core of the `JSON.parse` model.  Every recursive call spends one
unit of fuel, and at most two units of fuel are spent per input character,
so `2 * length input + 2` fuel always suffices. -/
def parseCore : Nat → PMode → List Char → Option (Json × List Char)
| 0, _, _ => none
| Nat.succ fuel, PMode.value, s =>
  match skipWs s with
  | [] => none
  | '{' :: rest =>
    (match skipWs rest with
     | '}' :: r2 => some (Json.obj [], r2)
     | r => parseCore fuel (PMode.objRest []) r)
  | '[' :: rest =>
    (match skipWs rest with
     | ']' :: r2 => some (Json.arr [], r2)
     | r => parseCore fuel (PMode.arrRest []) r)
  | '"' :: rest =>
    (parseStrChars rest).map (fun p => (Json.str (String.mk p.1), p.2))
  | 't' :: rest =>
    if ['r', 'u', 'e'].isPrefixOf rest then
      some (Json.bool true, rest.drop 3)
    else none
  | 'f' :: rest =>
    if ['a', 'l', 's', 'e'].isPrefixOf rest then
      some (Json.bool false, rest.drop 4)
    else none
  | 'n' :: rest =>
    if ['u', 'l', 'l'].isPrefixOf rest then
      some (Json.null, rest.drop 3)
    else none
  | '-' :: rest =>
    (match takeDigits rest with
     | ([], _) => none
     | (ds, r) => some (Json.num (-(Int.ofNat (digitsToNat ds))), r))
  | c :: rest =>
    if c.isDigit then
      (match takeDigits (c :: rest) with
       | (ds, r) => some (Json.num (Int.ofNat (digitsToNat ds)), r))
    else none
| Nat.succ fuel, PMode.arrRest acc, s =>
  match parseCore fuel PMode.value s with
  | none => none
  | some (v, r) =>
    (match skipWs r with
     | ',' :: r2 => parseCore fuel (PMode.arrRest (acc ++ [v])) r2
     | ']' :: r2 => some (Json.arr (acc ++ [v]), r2)
     | _ => none)
| Nat.succ fuel, PMode.objRest acc, s =>
  match skipWs s with
  | '"' :: rest =>
    (match parseStrChars rest with
     | none => none
     | some (kcs, r1) =>
       (match skipWs r1 with
        | ':' :: r2 =>
          (match parseCore fuel PMode.value r2 with
           | none => none
           | some (v, r3) =>
             let acc' := objSet acc (String.mk kcs) v
             (match skipWs r3 with
              | ',' :: r4 => parseCore fuel (PMode.objRest acc') r4
              | '}' :: r4 => some (Json.obj acc', r4)
              | _ => none))
        | _ => none))
  | _ => none

/-- `JSON.parse`: parse the whole string, requiring only whitespace after
the value. -/
def jparse (s : String) : Option Json :=
  match parseCore (2 * s.length + 2) PMode.value s.data with
  | some (v, rest) => if skipWs rest = [] then some v else none
  | none => none

/-! ### Thrown values

A rejected promise carries one of: an `Error` built by the module itself,
a `TypeError` from reading a property of `undefined`, a `SyntaxError` from
`JSON.parse`, or the HTTP library's own rejection object rethrown
unchanged (`throw result` in `handleRequest`). -/

/-- The failed response attached to an HTTP-library rejection:
`none` models `result.response` being `undefined` (e.g. a network error),
`some none` models a response without a body, `some (some b)` a response
whose body is the string `b`. -/
abbrev FailedResponse := Option (Option String)

/-- A value thrown (promise rejection) somewhere in the module. -/
inductive JsError where
| error (message : String) : JsError
| typeError : JsError
| syntaxError : JsError
| httpError (response : FailedResponse) : JsError
deriving DecidableEq, Repr

/-- JS property read `v.k` on a parsed JSON value: reading on `null` throws
a `TypeError`, reading a missing key (or any key of a primitive) yields
`undefined` (`none`). -/
def getProp : Json → String → Except JsError (Option Json)
| Json.null, _ => Except.error JsError.typeError
| Json.obj fields, k => Except.ok (lookupObj fields k)
| _, _ => Except.ok none

/-- JS property read on a possibly-`undefined` value: reading a property of
`undefined` throws a `TypeError`. -/
def memberOpt : Option Json → String → Except JsError (Option Json)
| none, _ => Except.error JsError.typeError
| some v, k => getProp v k

/-- `throwError` from `src/index.js` lines 16-18:
`throw new Error('Error code ' + result.error.code + ': ' + result.error.message)`.
The evaluation of `result.error.code` / `result.error.message` can itself
throw a `TypeError`, which is then what propagates. -/
def throwApiError (result : Json) : JsError :=
  match getProp result "error" with
  | Except.error e => e
  | Except.ok errv =>
    match memberOpt errv "code" with
    | Except.error e => e
    | Except.ok code =>
      match memberOpt errv "message" with
      | Except.error e => e
      | Except.ok msg =>
        JsError.error ("Error code " ++ optToStr code ++ ": " ++ optToStr msg)

/-! ### The HTTP layer -/

/-- The outcome of the HTTP exchange, as the `request-promise` library
delivers it: the promise resolves with the body string, or rejects with an
error object whose `response` field is modelled by `FailedResponse`. -/
inductive HttpOutcome where
| success (body : String) : HttpOutcome
| failure (response : FailedResponse) : HttpOutcome
deriving DecidableEq, Repr

/-- A value of a query-string option object (the `qs` option): the module
uses strings and the boolean `json: true`. -/
inductive QVal where
| str (s : String) : QVal
| bool (b : Bool) : QVal
deriving DecidableEq, Repr

/-- A value of the multipart `formData` option: a plain string field or a
file stream created by `fs.createReadStream(fileName)`. -/
inductive FormVal where
| str (s : String) : FormVal
| stream (fileName : String) : FormVal
deriving DecidableEq, Repr

/-- The request handed to the `request` library: `request.get({url, qs})`,
`request.post({url, qs, formData})`, or the bare `request(url)` used by
`getApiRequest` (whose query string is embedded in the URL text). -/
inductive ReqSpec where
| get (url : String) (qs : List (String × QVal)) : ReqSpec
| post (url : String) (qs : List (String × QVal))
    (formData : List (String × FormVal)) : ReqSpec
| rawGet (url : String) : ReqSpec
deriving DecidableEq, Repr

/-- The module's global state: `var apiKey;` (initially `undefined`) and
`var baseUrl = 'https://api.crowdin.com';` from `src/index.js` lines 7-8. -/
structure Config where
  apiKey : Option String
  baseUrl : String
deriving DecidableEq, Repr

/-- The state of the freshly loaded module. -/
def initialConfig : Config :=
  { apiKey := none, baseUrl := "https://api.crowdin.com" }

/-- `validateKey` from lines 10-14: throws when the key was never set.  The
embedding returns the key on success for convenient downstream use. -/
def validateKey (c : Config) : Except JsError String :=
  match c.apiKey with
  | none => Except.error (JsError.error "Please specify CrowdIn API key.")
  | some k => Except.ok k

/-- `handleRequest` from lines 20-38.  On a resolved promise the body is
`JSON.parse`d and returned as-is: the `success` check is commented out in
the source, so an error envelope in a successful response is NOT detected.
On a rejected promise, if `result.response.body` is truthy it is parsed and
fed to `throwError`; otherwise the original rejection is rethrown.  A
`JSON.parse` failure on the success path lands in the same `catch` with a
`SyntaxError`, whose absent `response` makes `.body` throw a `TypeError`. -/
def handleRequest (out : HttpOutcome) : Except JsError Json :=
  match out with
  | HttpOutcome.success body =>
    (match jparse body with
     | some result => Except.ok result
     | none => Except.error JsError.typeError)
  | HttpOutcome.failure none => Except.error JsError.typeError
  | HttpOutcome.failure (some none) =>
    Except.error (JsError.httpError (some none))
  | HttpOutcome.failure (some (some body)) =>
    if body = "" then Except.error (JsError.httpError (some (some body)))
    else
      (match jparse body with
       | none => Except.error JsError.syntaxError
       | some parsed => Except.error (throwApiError parsed))

/-- `getApiCall` from lines 40-53: validate the key, then
`request.get({url: baseUrl + '/api/' + apiUrl, qs: {json: true, key: apiKey}})`. -/
def getApiCall (c : Config) (apiUrl : String) : Except JsError ReqSpec :=
  match validateKey c with
  | Except.error e => Except.error e
  | Except.ok key =>
    Except.ok (ReqSpec.get (c.baseUrl ++ "/api/" ++ apiUrl)
      [("json", QVal.bool true), ("key", QVal.str key)])

/-- `postApiCall` from lines 55-69: validate the key, merge
`{json: true, key: apiKey}` into `getOptions || {}` with `extend` (which
mutates the caller's object when one was passed), and post with the merged
query string and `postOptions || {}` as the form body.  `none` models an
omitted argument. -/
def postApiCall (c : Config) (apiUrl : String)
    (getOptions : Option (List (String × QVal)))
    (postOptions : Option (List (String × FormVal))) :
    Except JsError ReqSpec :=
  match validateKey c with
  | Except.error e => Except.error e
  | Except.ok key =>
    Except.ok (ReqSpec.post (c.baseUrl ++ "/api/" ++ apiUrl)
      (extend (getOptions.getD [])
        [("json", QVal.bool true), ("key", QVal.str key)])
      (postOptions.getD []))

/-- `getApiRequest` from lines 71-77: validate the key, then call the bare
`request(baseUrl + '/api/' + apiUrl + '?key=' + apiKey + '&json')`,
returning the raw promise with no `handleRequest` wrapping. -/
def getApiRequest (c : Config) (apiUrl : String) : Except JsError ReqSpec :=
  match validateKey c with
  | Except.error e => Except.error e
  | Except.ok key =>
    Except.ok (ReqSpec.rawGet
      (c.baseUrl ++ "/api/" ++ apiUrl ++ "?key=" ++ key ++ "&json"))

/-! ### The exported operations

`module.exports` exposes `setKey`, `setBasePath` and nineteen API
operations.  Each API operation is a constructor of `Op`, carrying exactly
the arguments of the JS function. -/

/-- The `fileNameOrStream` argument of the glossary / translation-memory
uploads: either a file name string or an already-open stream (identified by
the path it reads). -/
inductive FileArg where
| str (s : String) : FileArg
| stream (path : String) : FileArg
deriving DecidableEq, Repr

/-- `typeof fileNameOrStream === 'string'` conversion at the top of
`uploadGlossary` / `uploadTranslationMemory`: a string is replaced by
`fs.createReadStream(fileNameOrStream)`. -/
def FileArg.toForm : FileArg → FormVal
| FileArg.str s => FormVal.stream s
| FileArg.stream p => FormVal.stream p

/-- One exported API operation together with its arguments (every exported
function other than `setKey` and `setBasePath`). -/
inductive Op where
| addFile (projectName : String) (files : List String)
    (params : List (String × FormVal)) : Op
| updateFile (projectName : String) (files : List String)
    (params : List (String × FormVal)) : Op
| deleteFile (projectName fileName : String) : Op
| updateTranslations (projectName : String) (files : List String)
    (language : String) (params : List (String × FormVal)) : Op
| translationStatus (projectName : String) : Op
| projectInfo (projectName : String) : Op
| downloadTranslations (projectName languageCode : String) : Op
| downloadAllTranslations (projectName : String) : Op
| exportTranslations (projectName : String) : Op
| editProject (projectName : String)
    (params : List (String × FormVal)) : Op
| deleteProject (projectName : String) : Op
| createDirectory (projectName directory : String)
    (params : Option (List (String × QVal))) : Op
| changeDirectory (projectName directory : String)
    (params : Option (List (String × QVal))) : Op
| deleteDirectory (projectName directory : String) : Op
| downloadGlossary (projectName : String) : Op
| uploadGlossary (projectName : String) (file : FileArg) : Op
| downloadTranslationMemory (projectName : String) : Op
| uploadTranslationMemory (projectName : String) (file : FileArg) : Op
| supportedLanguages : Op
deriving DecidableEq, Repr

/-- The `files.forEach` loops of `addFile` / `updateFile` /
`updateTranslations`: starting from `base`, assign
`filesInformation['files[' + fileName + ']'] = fs.createReadStream(fileName)`
for each file. -/
def filesInformationOf (files : List String)
    (base : List (String × FormVal)) : List (String × FormVal) :=
  files.foldl
    (fun acc f => objSet acc ("files[" ++ f ++ "]") (FormVal.stream f)) base

/-- The endpoint path each operation passes to its HTTP helper. -/
def endpointOf : Op → String
| Op.addFile p _ _ => "project/" ++ p ++ "/add-file"
| Op.updateFile p _ _ => "project/" ++ p ++ "/update-file"
| Op.deleteFile p _ => "project/" ++ p ++ "/delete-file"
| Op.updateTranslations p _ _ _ => "project/" ++ p ++ "/upload-translation"
| Op.translationStatus p => "project/" ++ p ++ "/status"
| Op.projectInfo p => "project/" ++ p ++ "/info"
| Op.downloadTranslations p l => "project/" ++ p ++ "/download/" ++ l ++ ".zip"
| Op.downloadAllTranslations p => "project/" ++ p ++ "/download/all.zip"
| Op.exportTranslations p => "project/" ++ p ++ "/export"
| Op.editProject p _ => "project/" ++ p ++ "/edit-project"
| Op.deleteProject p => "project/" ++ p ++ "/delete-project"
| Op.createDirectory p _ _ => "project/" ++ p ++ "/add-directory"
| Op.changeDirectory p _ _ => "project/" ++ p ++ "/change-directory"
| Op.deleteDirectory p _ => "project/" ++ p ++ "/delete-directory"
| Op.downloadGlossary p => "project/" ++ p ++ "/download-glossary"
| Op.uploadGlossary p _ => "project/" ++ p ++ "/upload-glossary"
| Op.downloadTranslationMemory p => "project/" ++ p ++ "/download-tm"
| Op.uploadTranslationMemory p _ => "project/" ++ p ++ "/upload-tm"
| Op.supportedLanguages => "supported-languages"

/-- Whether the operation goes through `getApiRequest` (the bare
`request(url)` with no `handleRequest`): exactly the three downloads. -/
def usesRawGet : Op → Bool
| Op.downloadTranslations _ _ => true
| Op.downloadAllTranslations _ => true
| Op.downloadGlossary _ => true
| _ => false

/-- The body of each exported API function from `src/index.js` lines
95-277: build the helper's arguments and call it, yielding the request
handed to the HTTP library (or the thrown `JsError`).  Note that
`changeDirectory` passes its `params` as a fourth argument to the
three-parameter `postApiCall`, so it is dropped. -/
def callOp (c : Config) (op : Op) : Except JsError ReqSpec :=
  match op with
  | Op.addFile p files params =>
    postApiCall c (endpointOf (Op.addFile p files params)) (some [])
      (some (extend (filesInformationOf files []) params))
  | Op.updateFile p files params =>
    postApiCall c (endpointOf (Op.updateFile p files params)) (some [])
      (some (extend (filesInformationOf files []) params))
  | Op.deleteFile p f =>
    postApiCall c (endpointOf (Op.deleteFile p f)) (some [])
      (some [("file", FormVal.str f)])
  | Op.updateTranslations p files lang params =>
    postApiCall c (endpointOf (Op.updateTranslations p files lang params))
      (some [])
      (some (extend (filesInformationOf files [("language", FormVal.str lang)])
        params))
  | Op.translationStatus p =>
    postApiCall c (endpointOf (Op.translationStatus p)) none none
  | Op.projectInfo p =>
    postApiCall c (endpointOf (Op.projectInfo p)) none none
  | Op.downloadTranslations p l =>
    getApiRequest c (endpointOf (Op.downloadTranslations p l))
  | Op.downloadAllTranslations p =>
    getApiRequest c (endpointOf (Op.downloadAllTranslations p))
  | Op.exportTranslations p =>
    getApiCall c (endpointOf (Op.exportTranslations p))
  | Op.editProject p params =>
    postApiCall c (endpointOf (Op.editProject p params)) (some [])
      (some params)
  | Op.deleteProject p =>
    postApiCall c (endpointOf (Op.deleteProject p)) none none
  | Op.createDirectory p d params =>
    postApiCall c (endpointOf (Op.createDirectory p d params)) params
      (some [("name", FormVal.str d)])
  | Op.changeDirectory p d params =>
    postApiCall c (endpointOf (Op.changeDirectory p d params)) (some [])
      (some [("name", FormVal.str d)])
  | Op.deleteDirectory p d =>
    postApiCall c (endpointOf (Op.deleteDirectory p d)) (some [])
      (some [("name", FormVal.str d)])
  | Op.downloadGlossary p =>
    getApiRequest c (endpointOf (Op.downloadGlossary p))
  | Op.uploadGlossary p f =>
    postApiCall c (endpointOf (Op.uploadGlossary p f)) (some [])
      (some [("file", f.toForm)])
  | Op.downloadTranslationMemory p =>
    postApiCall c (endpointOf (Op.downloadTranslationMemory p)) none none
  | Op.uploadTranslationMemory p f =>
    postApiCall c (endpointOf (Op.uploadTranslationMemory p f)) (some [])
      (some [("file", f.toForm)])
  | Op.supportedLanguages =>
    getApiCall c (endpointOf Op.supportedLanguages)

/-- The list of HTTP requests one invocation hands to the HTTP library:
each operation's body contains exactly one `request` call, reached unless
`validateKey` throws first. -/
def requestsIssued (c : Config) (op : Op) : List ReqSpec :=
  match callOp c op with
  | Except.ok r => [r]
  | Except.error _ => []

/-- The contents of the caller's (query-)params object after the call, for
the two operations whose JS signature takes such an object.
`createDirectory` passes the caller's `params` as `postApiCall`'s
`getOptions`, so `extend` mutates it in place (adding `json` and `key`)
once `validateKey` has passed; `changeDirectory`'s `params` is dropped and
never touched. -/
def qsParamsAfter (c : Config) (op : Op) :
    Option (List (String × QVal)) :=
  match op with
  | Op.createDirectory _ _ none => none
  | Op.createDirectory _ _ (some ps) =>
    (match c.apiKey with
     | none => some ps
     | some k =>
       some (extend ps [("json", QVal.bool true), ("key", QVal.str k)]))
  | Op.changeDirectory _ _ ps => ps
  | _ => none

/-- The caller's params object as it was before the call, for the same two
operations. -/
def originalQsParams : Op → Option (List (String × QVal))
| Op.createDirectory _ _ ps => ps
| Op.changeDirectory _ _ ps => ps
| _ => none

/-- What an operation's promise resolves with: the `JSON.parse`d body for
the `handleRequest`-wrapped operations, the raw body string for the
`getApiRequest` downloads. -/
inductive ApiResult where
| json (v : Json) : ApiResult
| raw (body : String) : ApiResult
deriving Repr

/-- Run one operation to completion against a given HTTP outcome: build the
request (possibly throwing), then either pass the outcome through
`handleRequest` or, for the bare `request(url)` operations, resolve with
the raw body / reject with the HTTP library's own error. -/
def runOp (c : Config) (op : Op) (out : HttpOutcome) :
    Except JsError ApiResult :=
  match callOp c op with
  | Except.error e => Except.error e
  | Except.ok (ReqSpec.rawGet _) =>
    (match out with
     | HttpOutcome.success body => Except.ok (ApiResult.raw body)
     | HttpOutcome.failure resp => Except.error (JsError.httpError resp))
  | Except.ok _ => (handleRequest out).map ApiResult.json

/-- A call into the module: the two setters or an API operation. -/
inductive Cmd where
| setKey (newKey : String) : Cmd
| setBasePath (newBasePath : String) : Cmd
| api (op : Op) : Cmd

/-- The effect of one module call on the global state, paired with the
request it issues (if any).  `setKey` assigns `apiKey`, `setBasePath`
assigns `baseUrl`; no API operation assigns either global — their bodies,
embedded in `callOp`, only read the configuration. -/
def step (c : Config) : Cmd → Config × Option (Except JsError ReqSpec)
| Cmd.setKey k => ({ c with apiKey := some k }, none)
| Cmd.setBasePath p => ({ c with baseUrl := p }, none)
| Cmd.api op => (c, some (callOp c op))

/-! ### Reading a request back as path and query parameters

To state URL properties uniformly over the three request shapes we recover,
at the character level, the path part and the query parameters an HTTP
request effectively carries: for `get`/`post` the `qs` object serialised by
the `qs` module (booleans print as `true`/`false`), for the bare
`request(url)` the text after the first `?`, split on `&` and `=`. -/

/-- Split a character list at the first occurrence of `sep`. -/
def splitFirst (sep : Char) : List Char → Option (List Char × List Char)
| [] => none
| c :: cs =>
  if c = sep then some ([], cs)
  else
    match splitFirst sep cs with
    | none => none
    | some p => some (c :: p.1, p.2)

/-- Split a character list at every occurrence of `sep`. -/
def splitEvery (sep : Char) : List Char → List (List Char)
| [] => [[]]
| c :: cs =>
  if c = sep then [] :: splitEvery sep cs
  else
    match splitEvery sep cs with
    | [] => [[c]]
    | h :: t => (c :: h) :: t

/-- Read one `name=value` query piece; a piece without `=` is a valueless
parameter. -/
def pairOf (piece : List Char) : List Char × List Char :=
  match splitFirst '=' piece with
  | none => (piece, [])
  | some p => p

/-- How the `qs` module serialises a query-object value. -/
def qvalStr : QVal → String
| QVal.str s => s
| QVal.bool true => "true"
| QVal.bool false => "false"

/-- The URL text of a request as handed to the HTTP library. -/
def ReqSpec.urlOf : ReqSpec → String
| ReqSpec.get u _ => u
| ReqSpec.post u _ _ => u
| ReqSpec.rawGet u => u

/-- The path part of the request URL: the text before the first `?`. -/
def ReqSpec.urlPath (r : ReqSpec) : List Char :=
  match splitFirst '?' r.urlOf.data with
  | none => r.urlOf.data
  | some p => p.1

/-- The query parameters the request effectively carries, as
(name, value) character lists. -/
def ReqSpec.queryPairs : ReqSpec → List (List Char × List Char)
| ReqSpec.get _ qs =>
  qs.map (fun p => (p.1.data, (qvalStr p.2).data))
| ReqSpec.post _ qs _ =>
  qs.map (fun p => (p.1.data, (qvalStr p.2).data))
| ReqSpec.rawGet u =>
  match splitFirst '?' u.data with
  | none => []
  | some p => (splitEvery '&' p.2).map pairOf

/-! ### Helper lemmas -/

theorem splitFirst_of_not_mem {sep : Char} {xs : List Char}
    (h : sep ∉ xs) : splitFirst sep xs = none := by
  induction xs with
  | nil => rfl
  | cons c cs ih =>
    have hc : ¬ c = sep := fun hc => h (hc ▸ List.mem_cons_self c cs)
    have hcs : sep ∉ cs := fun hm => h (List.mem_cons_of_mem c hm)
    simp [splitFirst, hc, ih hcs]

theorem splitFirst_append {sep : Char} {xs : List Char} (ys : List Char)
    (h : sep ∉ xs) : splitFirst sep (xs ++ sep :: ys) = some (xs, ys) := by
  induction xs with
  | nil => simp [splitFirst]
  | cons c cs ih =>
    have hc : ¬ c = sep := fun hc => h (hc ▸ List.mem_cons_self c cs)
    have hcs : sep ∉ cs := fun hm => h (List.mem_cons_of_mem c hm)
    simp [splitFirst, hc, ih hcs]

theorem splitEvery_of_not_mem {sep : Char} {xs : List Char}
    (h : sep ∉ xs) : splitEvery sep xs = [xs] := by
  induction xs with
  | nil => rfl
  | cons c cs ih =>
    have hc : ¬ c = sep := fun hc => h (hc ▸ List.mem_cons_self c cs)
    have hcs : sep ∉ cs := fun hm => h (List.mem_cons_of_mem c hm)
    simp [splitEvery, hc, ih hcs]

theorem splitEvery_append {sep : Char} {xs : List Char} (ys : List Char)
    (h : sep ∉ xs) :
    splitEvery sep (xs ++ sep :: ys) = xs :: splitEvery sep ys := by
  induction xs with
  | nil => simp [splitEvery]
  | cons c cs ih =>
    have hc : ¬ c = sep := fun hc => h (hc ▸ List.mem_cons_self c cs)
    have hcs : sep ∉ cs := fun hm => h (List.mem_cons_of_mem c hm)
    simp [splitEvery, hc, ih hcs]

theorem mem_objSet_self {α : Type} (o : List (String × α)) (k : String)
    (v : α) : (k, v) ∈ objSet o k v := by
  unfold objSet
  by_cases h : k ∈ o.map Prod.fst
  · rw [if_pos h]
    obtain ⟨p, hp, hfst⟩ := List.mem_map.mp h
    refine List.mem_map.mpr ⟨p, hp, ?_⟩
    rw [if_pos hfst]
  · rw [if_neg h]
    exact List.mem_append_right _ (List.mem_singleton.mpr rfl)

theorem lookup_map_upd_ne {α : Type} (o : List (String × α))
    (k k₀ : String) (v : α) (h : k₀ ≠ k) :
    lookupObj (o.map (fun p => if p.1 = k then (k, v) else p)) k₀
      = lookupObj o k₀ := by
  induction o with
  | nil => rfl
  | cons p rest ih =>
    simp only [List.map_cons]
    by_cases hp : p.1 = k
    · rw [if_pos hp]
      have hne : ¬ (k = k₀) := fun hb => h hb.symm
      have hne' : ¬ (p.1 = k₀) := fun hb => h (hb.symm.trans hp)
      simp only [lookupObj, if_neg hne, if_neg hne', ih]
    · rw [if_neg hp]
      by_cases hk₀ : p.1 = k₀
      · simp only [lookupObj, if_pos hk₀]
      · simp only [lookupObj, if_neg hk₀, ih]

theorem lookup_map_upd_self {α : Type} (o : List (String × α))
    (k : String) (v : α) (h : k ∈ o.map Prod.fst) :
    lookupObj (o.map (fun p => if p.1 = k then (k, v) else p)) k
      = some v := by
  induction o with
  | nil => simp at h
  | cons p rest ih =>
    simp only [List.map_cons]
    by_cases hp : p.1 = k
    · rw [if_pos hp]
      simp [lookupObj]
    · rw [if_neg hp]
      have hrest : k ∈ rest.map Prod.fst := by
        rw [List.map_cons] at h
        rcases List.mem_cons.mp h with he | hm
        · exact absurd he.symm hp
        · exact hm
      simp only [lookupObj, if_neg hp, ih hrest]

theorem lookup_append_single {α : Type} (o : List (String × α))
    (k k₀ : String) (v : α) (h : k ∉ o.map Prod.fst) :
    lookupObj (o ++ [(k, v)]) k₀
      = if k₀ = k then some v else lookupObj o k₀ := by
  induction o with
  | nil =>
    by_cases hk : k₀ = k
    · simp [lookupObj, hk]
    · have hk' : ¬ (k = k₀) := fun hb => hk hb.symm
      simp [lookupObj, hk', hk]
  | cons p rest ih =>
    have hp : ¬ (p.1 = k) := fun hb => h (by simp [← hb])
    have hrest : k ∉ rest.map Prod.fst := fun hb => h (by simp [hb])
    simp only [List.cons_append]
    by_cases hk₀ : p.1 = k₀
    · have hne : ¬ (k₀ = k) := fun he => hp (hk₀.trans he)
      simp only [lookupObj, if_pos hk₀, if_neg hne]
    · simp only [lookupObj, if_neg hk₀, ih hrest]

/-- Full description of a JS property assignment followed by a read. -/
theorem lookupObj_objSet {α : Type} (o : List (String × α))
    (k k₀ : String) (v : α) :
    lookupObj (objSet o k v) k₀
      = if k₀ = k then some v else lookupObj o k₀ := by
  unfold objSet
  by_cases hc : k ∈ o.map Prod.fst
  · rw [if_pos hc]
    by_cases hk : k₀ = k
    · rw [if_pos hk, hk, lookup_map_upd_self o k v hc]
    · rw [if_neg hk, lookup_map_upd_ne o k k₀ v hk]
  · rw [if_neg hc, lookup_append_single o k k₀ v hc]

theorem not_mem_data_append {ch : Char} {a b : String}
    (ha : ch ∉ a.data) (hb : ch ∉ b.data) : ch ∉ (a ++ b).data := by
  rw [String.data_append]
  intro hm
  rcases List.mem_append.mp hm with h | h
  · exact ha h
  · exact hb h

theorem rawGet_url_data (pathStr key : String) :
    (pathStr ++ "?key=" ++ key ++ "&json").data
      = pathStr.data
        ++ '?' :: (['k', 'e', 'y', '=']
          ++ (key.data ++ '&' :: ['j', 's', 'o', 'n'])) := by
  have h1 : ("?key=" : String).data = '?' :: ['k', 'e', 'y', '='] := rfl
  have h2 : ("&json" : String).data = '&' :: ['j', 's', 'o', 'n'] := rfl
  simp [String.data_append, h1, h2]

theorem urlPath_rawGet (pathStr key : String) (h : '?' ∉ pathStr.data) :
    (ReqSpec.rawGet (pathStr ++ "?key=" ++ key ++ "&json")).urlPath
      = pathStr.data := by
  simp [ReqSpec.urlPath, ReqSpec.urlOf, rawGet_url_data,
    splitFirst_append _ h]

theorem queryPairs_rawGet (pathStr key : String) (h : '?' ∉ pathStr.data)
    (hk : '&' ∉ key.data) :
    (ReqSpec.rawGet (pathStr ++ "?key=" ++ key ++ "&json")).queryPairs
      = [(['k', 'e', 'y'], key.data), (['j', 's', 'o', 'n'], [])] := by
  have hkey4 : '&' ∉ ['k', 'e', 'y', '='] ++ key.data := by
    intro hm
    rcases List.mem_append.mp hm with hmm | hmm
    · simp at hmm
    · exact hk hmm
  have hjson : ('&' : Char) ∉ ['j', 's', 'o', 'n'] := by decide
  have hsplit : splitEvery '&'
      ('k' :: 'e' :: 'y' :: '=' :: (key.data ++ '&' :: ['j', 's', 'o', 'n']))
      = ('k' :: 'e' :: 'y' :: '=' :: key.data) :: [['j', 's', 'o', 'n']] := by
    have h0 := splitEvery_append ['j', 's', 'o', 'n'] hkey4
    rw [splitEvery_of_not_mem hjson] at h0
    simpa using h0
  have hpair : pairOf ('k' :: 'e' :: 'y' :: '=' :: key.data)
      = (['k', 'e', 'y'], key.data) := by
    have hkey3 : ('=' : Char) ∉ ['k', 'e', 'y'] := by decide
    have hsf : splitFirst '=' ('k' :: 'e' :: 'y' :: '=' :: key.data)
        = some (['k', 'e', 'y'], key.data) := splitFirst_append key.data hkey3
    simp [pairOf, hsf]
  have hpair2 : pairOf ['j', 's', 'o', 'n'] = (['j', 's', 'o', 'n'], []) := by
    have hj : ('=' : Char) ∉ ['j', 's', 'o', 'n'] := by decide
    simp [pairOf, splitFirst_of_not_mem hj]
  simp [ReqSpec.queryPairs, rawGet_url_data, splitFirst_append _ h,
    hsplit, hpair, hpair2]

/-- The request issued by `getApiCall` when the key is set. -/
theorem getApiCall_req (c : Config) (apiUrl k : String)
    (hkey : c.apiKey = some k) :
    getApiCall c apiUrl
      = Except.ok (ReqSpec.get (c.baseUrl ++ "/api/" ++ apiUrl)
          [("json", QVal.bool true), ("key", QVal.str k)]) := by
  simp [getApiCall, validateKey, hkey]

/-- The request issued by `postApiCall` when the key is set. -/
theorem postApiCall_req (c : Config) (apiUrl k : String)
    (getOptions : Option (List (String × QVal)))
    (postOptions : Option (List (String × FormVal)))
    (hkey : c.apiKey = some k) :
    postApiCall c apiUrl getOptions postOptions
      = Except.ok (ReqSpec.post (c.baseUrl ++ "/api/" ++ apiUrl)
          (extend (getOptions.getD [])
            [("json", QVal.bool true), ("key", QVal.str k)])
          (postOptions.getD [])) := by
  simp [postApiCall, validateKey, hkey]

/-- The request issued by `getApiRequest` when the key is set. -/
theorem getApiRequest_req (c : Config) (apiUrl k : String)
    (hkey : c.apiKey = some k) :
    getApiRequest c apiUrl
      = Except.ok (ReqSpec.rawGet
          (c.baseUrl ++ "/api/" ++ apiUrl ++ "?key=" ++ k ++ "&json")) := by
  simp [getApiRequest, validateKey, hkey]

/-- `extend` of the two-field object `{json: true, key: k}` is two
`objSet` assignments. -/
theorem extend_json_key {gOpts : List (String × QVal)} {k : String} :
    extend gOpts [("json", QVal.bool true), ("key", QVal.str k)]
      = objSet (objSet gOpts "json" (QVal.bool true)) "key" (QVal.str k) :=
  rfl

/-- C4 property, `getApiCall` case. -/
theorem getApiCall_c4 (c : Config) (apiUrl k : String)
    (hkey : c.apiKey = some k)
    (hb : '?' ∉ c.baseUrl.data) (he : '?' ∉ apiUrl.data) :
    ∃ r : ReqSpec, getApiCall c apiUrl = Except.ok r ∧
      r.urlPath = (c.baseUrl ++ "/api/" ++ apiUrl).data ∧
      (['k', 'e', 'y'], k.data) ∈ r.queryPairs := by
  refine ⟨_, getApiCall_req c apiUrl k hkey, ?_, ?_⟩
  · have hnq : '?' ∉ (c.baseUrl ++ "/api/" ++ apiUrl).data :=
      not_mem_data_append (not_mem_data_append hb (by decide)) he
    have hnq2 : '?' ∉
        c.baseUrl.data ++ '/' :: 'a' :: 'p' :: 'i' :: '/' :: apiUrl.data := by
      simpa [String.data_append] using hnq
    simp [ReqSpec.urlPath, ReqSpec.urlOf, splitFirst_of_not_mem hnq2]
  · refine List.mem_map.mpr ⟨("key", QVal.str k), ?_, rfl⟩
    simp

/-- C4 property, `postApiCall` case. -/
theorem postApiCall_c4 (c : Config) (apiUrl k : String)
    (getOptions : Option (List (String × QVal)))
    (postOptions : Option (List (String × FormVal)))
    (hkey : c.apiKey = some k)
    (hb : '?' ∉ c.baseUrl.data) (he : '?' ∉ apiUrl.data) :
    ∃ r : ReqSpec, postApiCall c apiUrl getOptions postOptions = Except.ok r ∧
      r.urlPath = (c.baseUrl ++ "/api/" ++ apiUrl).data ∧
      (['k', 'e', 'y'], k.data) ∈ r.queryPairs := by
  refine ⟨_, postApiCall_req c apiUrl k getOptions postOptions hkey, ?_, ?_⟩
  · have hnq : '?' ∉ (c.baseUrl ++ "/api/" ++ apiUrl).data :=
      not_mem_data_append (not_mem_data_append hb (by decide)) he
    have hnq2 : '?' ∉
        c.baseUrl.data ++ '/' :: 'a' :: 'p' :: 'i' :: '/' :: apiUrl.data := by
      simpa [String.data_append] using hnq
    simp [ReqSpec.urlPath, ReqSpec.urlOf, splitFirst_of_not_mem hnq2]
  · refine List.mem_map.mpr ⟨("key", QVal.str k), ?_, rfl⟩
    rw [extend_json_key]
    exact mem_objSet_self _ _ _

/-- C4 property, `getApiRequest` case. -/
theorem getApiRequest_c4 (c : Config) (apiUrl k : String)
    (hkey : c.apiKey = some k)
    (hb : '?' ∉ c.baseUrl.data) (he : '?' ∉ apiUrl.data)
    (hk : '&' ∉ k.data) :
    ∃ r : ReqSpec, getApiRequest c apiUrl = Except.ok r ∧
      r.urlPath = (c.baseUrl ++ "/api/" ++ apiUrl).data ∧
      (['k', 'e', 'y'], k.data) ∈ r.queryPairs := by
  refine ⟨_, getApiRequest_req c apiUrl k hkey, ?_, ?_⟩
  · have hnq : '?' ∉ (c.baseUrl ++ "/api/" ++ apiUrl).data :=
      not_mem_data_append (not_mem_data_append hb (by decide)) he
    exact urlPath_rawGet _ k hnq
  · have hnq : '?' ∉ (c.baseUrl ++ "/api/" ++ apiUrl).data :=
      not_mem_data_append (not_mem_data_append hb (by decide)) he
    rw [queryPairs_rawGet _ k hnq hk]
    simp

/-- For operations wrapped by `handleRequest` (all but the three
downloads), running is building the request and mapping `handleRequest`
over the outcome. -/
theorem runOp_not_raw (c : Config) (op : Op) (k : String)
    (out : HttpOutcome) (hkey : c.apiKey = some k)
    (hop : usesRawGet op = false) :
    runOp c op out = (handleRequest out).map ApiResult.json := by
  have hget : ∀ apiUrl, getApiCall c apiUrl
      = Except.ok (ReqSpec.get (c.baseUrl ++ "/api/" ++ apiUrl)
          [("json", QVal.bool true), ("key", QVal.str k)]) :=
    fun apiUrl => getApiCall_req c apiUrl k hkey
  have hpost : ∀ apiUrl gOpts pOpts, postApiCall c apiUrl gOpts pOpts
      = Except.ok (ReqSpec.post (c.baseUrl ++ "/api/" ++ apiUrl)
          (extend (gOpts.getD [])
            [("json", QVal.bool true), ("key", QVal.str k)])
          (pOpts.getD [])) :=
    fun apiUrl gOpts pOpts => postApiCall_req c apiUrl k gOpts pOpts hkey
  cases op <;> simp_all [runOp, callOp, usesRawGet]

/-- For the three download operations the outcome is returned or rethrown
raw. -/
theorem runOp_raw (c : Config) (op : Op) (k : String)
    (out : HttpOutcome) (hkey : c.apiKey = some k)
    (hop : usesRawGet op = true) :
    runOp c op out
      = (match out with
         | HttpOutcome.success body => Except.ok (ApiResult.raw body)
         | HttpOutcome.failure resp =>
            Except.error (JsError.httpError resp)) := by
  have hraw : ∀ apiUrl, getApiRequest c apiUrl
      = Except.ok (ReqSpec.rawGet
          (c.baseUrl ++ "/api/" ++ apiUrl ++ "?key=" ++ k ++ "&json")) :=
    fun apiUrl => getApiRequest_req c apiUrl k hkey
  cases op <;> simp_all [runOp, callOp, usesRawGet]

/-! ### The claims -/

/-- Claim C4: for every public API operation (with the key set, and the
configured strings URL-hygienic: no `?` in the base URL or in the endpoint
path, no `&` in the key), the issued HTTP request's URL path is the stored
base URL followed by `/api/` and the operation's endpoint path, and the
request carries the stored API key as a query-string parameter named
`key`. -/
theorem c4_request_url_and_key (c : Config) (op : Op) (k : String)
    (hkey : c.apiKey = some k)
    (hb : '?' ∉ c.baseUrl.data)
    (he : '?' ∉ (endpointOf op).data)
    (hk : '&' ∉ k.data) :
    ∃ r : ReqSpec, callOp c op = Except.ok r ∧
      r.urlPath = (c.baseUrl ++ "/api/" ++ endpointOf op).data ∧
      (['k', 'e', 'y'], k.data) ∈ r.queryPairs := by
  cases op <;>
    first
      | exact getApiCall_c4 c _ k hkey hb he
      | exact postApiCall_c4 c _ k _ _ hkey hb he
      | exact getApiRequest_c4 c _ k hkey hb he hk

/-- Witness for C4 at a concrete configuration and operation. -/
theorem c4_request_url_and_key_witness :
    ∃ r : ReqSpec,
      callOp { apiKey := some "K", baseUrl := "https://api.crowdin.com" }
        (Op.downloadAllTranslations "p") = Except.ok r ∧
      r.urlPath = (("https://api.crowdin.com" : String) ++ "/api/"
        ++ endpointOf (Op.downloadAllTranslations "p")).data ∧
      (['k', 'e', 'y'], ("K" : String).data) ∈ r.queryPairs :=
  c4_request_url_and_key
    { apiKey := some "K", baseUrl := "https://api.crowdin.com" }
    (Op.downloadAllTranslations "p") "K" rfl (by decide) (by decide)
    (by decide)

/-- Claim C5: the only persistent state is the API key and the base URL;
`setKey` changes only the key, `setBasePath` changes only the base URL,
and every API operation leaves the whole state unchanged. -/
theorem c5_state_frame (c : Config) (newKey newBasePath : String)
    (op : Op) :
    (step c (Cmd.setKey newKey)).1.apiKey = some newKey ∧
    (step c (Cmd.setKey newKey)).1.baseUrl = c.baseUrl ∧
    (step c (Cmd.setBasePath newBasePath)).1.baseUrl = newBasePath ∧
    (step c (Cmd.setBasePath newBasePath)).1.apiKey = c.apiKey ∧
    (step c (Cmd.api op)).1 = c :=
  ⟨rfl, rfl, rfl, rfl, rfl⟩

/-- Claim C7: no retries — one invocation hands the HTTP library at most
one request, whatever the configuration. -/
theorem c7_at_most_one_request (c : Config) (op : Op) :
    (requestsIssued c op).length ≤ 1 := by
  unfold requestsIssued
  cases callOp c op <;> simp

/-- Claim C8: when the API key has never been set, every public API
operation throws `Error('Please specify CrowdIn API key.')` and no HTTP
request is issued. -/
theorem c8_missing_key (c : Config) (op : Op) (h : c.apiKey = none) :
    callOp c op
      = Except.error (JsError.error "Please specify CrowdIn API key.") ∧
    requestsIssued c op = [] := by
  have hv : validateKey c
      = Except.error (JsError.error "Please specify CrowdIn API key.") := by
    simp [validateKey, h]
  have hc : callOp c op
      = Except.error (JsError.error "Please specify CrowdIn API key.") := by
    cases op <;>
      simp [callOp, postApiCall, getApiCall, getApiRequest, hv]
  exact ⟨hc, by simp [requestsIssued, hc]⟩

/-- Witness for C8 on the freshly loaded module. -/
theorem c8_missing_key_witness :
    callOp initialConfig Op.supportedLanguages
      = Except.error (JsError.error "Please specify CrowdIn API key.") ∧
    requestsIssued initialConfig Op.supportedLanguages = [] :=
  c8_missing_key initialConfig Op.supportedLanguages rfl

/-- Claim C9: `changeDirectory`'s `params` argument has no effect — the
source passes it as a fourth argument to the three-parameter
`postApiCall`, so the issued request is the one of the call without
`params`, and its form body carries only `name = directory`. -/
theorem c9_changeDirectory_params_ignored (c : Config) (p d : String)
    (ps : Option (List (String × QVal))) (k : String)
    (hkey : c.apiKey = some k) :
    callOp c (Op.changeDirectory p d ps)
      = callOp c (Op.changeDirectory p d none) ∧
    callOp c (Op.changeDirectory p d ps)
      = Except.ok (ReqSpec.post
          (c.baseUrl ++ "/api/" ++ endpointOf (Op.changeDirectory p d ps))
          [("json", QVal.bool true), ("key", QVal.str k)]
          [("name", FormVal.str d)]) := by
  refine ⟨rfl, ?_⟩
  show postApiCall c (endpointOf (Op.changeDirectory p d ps)) (some [])
      (some [("name", FormVal.str d)]) = _
  rw [postApiCall_req c _ k _ _ hkey]
  rfl

/-- Witness for C9 at concrete arguments. -/
theorem c9_changeDirectory_params_ignored_witness :
    callOp { apiKey := some "K", baseUrl := "B" }
        (Op.changeDirectory "p" "d" (some [("x", QVal.str "y")]))
      = callOp { apiKey := some "K", baseUrl := "B" }
          (Op.changeDirectory "p" "d" none) ∧
    callOp { apiKey := some "K", baseUrl := "B" }
        (Op.changeDirectory "p" "d" (some [("x", QVal.str "y")]))
      = Except.ok (ReqSpec.post
          (("B" : String) ++ "/api/"
            ++ endpointOf (Op.changeDirectory "p" "d"
                (some [("x", QVal.str "y")])))
          [("json", QVal.bool true), ("key", QVal.str "K")]
          [("name", FormVal.str "d")]) :=
  c9_changeDirectory_params_ignored { apiKey := some "K", baseUrl := "B" }
    "p" "d" (some [("x", QVal.str "y")]) "K" rfl

/-- Claim C10: `createDirectory` sends a supplied `params` object as
query-string parameters (the form body carries only `name = directory`),
and mutates the caller's object in place: after the call it holds
`json = true` and `key = <stored API key>` in addition to its other
entries, which are preserved. -/
theorem c10_createDirectory_query_and_mutation (c : Config) (p d : String)
    (ps : List (String × QVal)) (k : String) (hkey : c.apiKey = some k) :
    callOp c (Op.createDirectory p d (some ps))
      = Except.ok (ReqSpec.post
          (c.baseUrl ++ "/api/"
            ++ endpointOf (Op.createDirectory p d (some ps)))
          (extend ps [("json", QVal.bool true), ("key", QVal.str k)])
          [("name", FormVal.str d)]) ∧
    qsParamsAfter c (Op.createDirectory p d (some ps))
      = some (extend ps [("json", QVal.bool true), ("key", QVal.str k)]) ∧
    lookupObj (extend ps [("json", QVal.bool true), ("key", QVal.str k)])
        "json" = some (QVal.bool true) ∧
    lookupObj (extend ps [("json", QVal.bool true), ("key", QVal.str k)])
        "key" = some (QVal.str k) ∧
    (∀ (k₀ : String) (v₀ : QVal), k₀ ≠ "json" → k₀ ≠ "key" →
      lookupObj ps k₀ = some v₀ →
      lookupObj (extend ps [("json", QVal.bool true), ("key", QVal.str k)])
        k₀ = some v₀) := by
  refine ⟨?_, ?_, ?_, ?_, ?_⟩
  · show postApiCall c (endpointOf (Op.createDirectory p d (some ps)))
        (some ps) (some [("name", FormVal.str d)]) = _
    rw [postApiCall_req c _ k _ _ hkey]
    rfl
  · simp [qsParamsAfter, hkey]
  · rw [extend_json_key, lookupObj_objSet,
      if_neg (show ¬ ("json" : String) = "key" by decide),
      lookupObj_objSet, if_pos rfl]
  · rw [extend_json_key, lookupObj_objSet, if_pos rfl]
  · intro k₀ v₀ hj hk₀ hv
    rw [extend_json_key, lookupObj_objSet, if_neg hk₀,
      lookupObj_objSet, if_neg hj]
    exact hv

/-- Witness for C10 at concrete arguments (the universally quantified
preservation conjunct is instantiated at the concrete entry `branch`). -/
theorem c10_createDirectory_query_and_mutation_witness :
    callOp { apiKey := some "K", baseUrl := "B" }
        (Op.createDirectory "p" "d" (some [("branch", QVal.str "b")]))
      = Except.ok (ReqSpec.post
          (("B" : String) ++ "/api/"
            ++ endpointOf (Op.createDirectory "p" "d"
                (some [("branch", QVal.str "b")])))
          (extend [("branch", QVal.str "b")]
            [("json", QVal.bool true), ("key", QVal.str "K")])
          [("name", FormVal.str "d")]) ∧
    qsParamsAfter { apiKey := some "K", baseUrl := "B" }
        (Op.createDirectory "p" "d" (some [("branch", QVal.str "b")]))
      = some (extend [("branch", QVal.str "b")]
          [("json", QVal.bool true), ("key", QVal.str "K")]) ∧
    lookupObj (extend [("branch", QVal.str "b")]
        [("json", QVal.bool true), ("key", QVal.str "K")]) "json"
      = some (QVal.bool true) ∧
    lookupObj (extend [("branch", QVal.str "b")]
        [("json", QVal.bool true), ("key", QVal.str "K")]) "key"
      = some (QVal.str "K") ∧
    lookupObj (extend [("branch", QVal.str "b")]
        [("json", QVal.bool true), ("key", QVal.str "K")]) "branch"
      = some (QVal.str "b") := by
  have h := c10_createDirectory_query_and_mutation
    { apiKey := some "K", baseUrl := "B" } "p" "d"
    [("branch", QVal.str "b")] "K" rfl
  exact ⟨h.1, h.2.1, h.2.2.1, h.2.2.2.1,
    h.2.2.2.2 "branch" (QVal.str "b") (by decide) (by decide) rfl⟩

/-- Refutation of claim C1 as stated: the HTTP call succeeds (2xx), the
parsed body is exactly an error envelope with `error.code` and
`error.message`, yet `projectInfo` resolves with the parsed body instead
of throwing — the success-path envelope check is commented out in
`handleRequest`. -/
theorem c1_counterexample :
    runOp { apiKey := some "K", baseUrl := "https://api.crowdin.com" }
      (Op.projectInfo "p")
      (HttpOutcome.success
        "\x7b\"error\":\x7b\"code\":3,\"message\":\"boom\"\x7d\x7d")
      = Except.ok (ApiResult.json (Json.obj [("error",
          Json.obj [("code", Json.num 3), ("message", Json.str "boom")])]))
    := rfl

/-- Claim C1 (amended): when the HTTP call succeeds, the operation does
not throw even if the parsed body is an error envelope — operations routed
through `handleRequest` resolve with the parsed body, and the download
operations resolve with the raw body; the vendor-code exception arises
only from HTTP-layer failures. -/
theorem c1_success_with_envelope_returns_body (c : Config) (op : Op)
    (k body : String) (fs efs : List (String × Json)) (cv mv : Json)
    (hkey : c.apiKey = some k)
    (hparse : jparse body = some (Json.obj fs))
    (henv : lookupObj fs "error" = some (Json.obj efs))
    (hcode : lookupObj efs "code" = some cv)
    (hmsg : lookupObj efs "message" = some mv) :
    (usesRawGet op = false →
      runOp c op (HttpOutcome.success body)
        = Except.ok (ApiResult.json (Json.obj fs))) ∧
    (usesRawGet op = true →
      runOp c op (HttpOutcome.success body)
        = Except.ok (ApiResult.raw body)) := by
  constructor
  · intro hop
    rw [runOp_not_raw c op k _ hkey hop]
    simp [handleRequest, hparse, Except.map]
  · intro hop
    rw [runOp_raw c op k _ hkey hop]

/-- Witness for the amended C1 at a concrete envelope body. -/
theorem c1_success_with_envelope_returns_body_witness :
    runOp { apiKey := some "K", baseUrl := "https://api.crowdin.com" }
      (Op.projectInfo "q")
      (HttpOutcome.success
        "\x7b\"error\":\x7b\"code\":7,\"message\":\"bad\"\x7d\x7d")
      = Except.ok (ApiResult.json (Json.obj [("error",
          Json.obj [("code", Json.num 7), ("message", Json.str "bad")])]))
    :=
  (c1_success_with_envelope_returns_body
    { apiKey := some "K", baseUrl := "https://api.crowdin.com" }
    (Op.projectInfo "q") "K"
    "\x7b\"error\":\x7b\"code\":7,\"message\":\"bad\"\x7d\x7d"
    [("error", Json.obj [("code", Json.num 7), ("message", Json.str "bad")])]
    [("code", Json.num 7), ("message", Json.str "bad")]
    (Json.num 7) (Json.str "bad") rfl rfl rfl rfl rfl).1 rfl

/-- Refutation of claim C2 as stated: `downloadTranslations` goes through
the bare `getApiRequest`, so an HTTP failure whose response body is a
well-formed error envelope is rethrown as the HTTP library's own rejection
and NOT as `Error('Error code 3: boom')`. -/
theorem c2_counterexample :
    runOp { apiKey := some "K", baseUrl := "https://api.crowdin.com" }
      (Op.downloadTranslations "p" "de")
      (HttpOutcome.failure (some (some
        "\x7b\"error\":\x7b\"code\":3,\"message\":\"boom\"\x7d\x7d")))
      = Except.error (JsError.httpError (some (some
          "\x7b\"error\":\x7b\"code\":3,\"message\":\"boom\"\x7d\x7d")))
    := rfl

/-- Claim C2 (amended): when the HTTP layer fails with a response whose
body is an error envelope, operations routed through `handleRequest`
throw `Error('Error code <code>: <message>')`, while the three download
operations (routed through `getApiRequest`) rethrow the HTTP library's
rejection unchanged. -/
theorem c2_failure_error_message (c : Config) (op : Op)
    (k body : String) (fs efs : List (String × Json)) (cv mv : Json)
    (hkey : c.apiKey = some k)
    (hbody : ¬ body = "")
    (hparse : jparse body = some (Json.obj fs))
    (henv : lookupObj fs "error" = some (Json.obj efs))
    (hcode : lookupObj efs "code" = some cv)
    (hmsg : lookupObj efs "message" = some mv) :
    (usesRawGet op = false →
      runOp c op (HttpOutcome.failure (some (some body)))
        = Except.error (JsError.error
            ("Error code " ++ jsToString cv ++ ": " ++ jsToString mv))) ∧
    (usesRawGet op = true →
      runOp c op (HttpOutcome.failure (some (some body)))
        = Except.error (JsError.httpError (some (some body)))) := by
  have hthrow : throwApiError (Json.obj fs)
      = JsError.error
          ("Error code " ++ jsToString cv ++ ": " ++ jsToString mv) := by
    simp [throwApiError, getProp, memberOpt, henv, hcode, hmsg, optToStr]
  constructor
  · intro hop
    rw [runOp_not_raw c op k _ hkey hop]
    simp [handleRequest, hbody, hparse, hthrow, Except.map]
  · intro hop
    rw [runOp_raw c op k _ hkey hop]

/-- Witness for the amended C2 at a concrete failing exchange. -/
theorem c2_failure_error_message_witness :
    runOp { apiKey := some "K", baseUrl := "https://api.crowdin.com" }
      (Op.deleteProject "q")
      (HttpOutcome.failure (some (some
        "\x7b\"error\":\x7b\"code\":5,\"message\":\"oops\"\x7d\x7d")))
      = Except.error (JsError.error ("Error code "
          ++ jsToString (Json.num 5) ++ ": " ++ jsToString (Json.str "oops")))
    :=
  (c2_failure_error_message
    { apiKey := some "K", baseUrl := "https://api.crowdin.com" }
    (Op.deleteProject "q") "K"
    "\x7b\"error\":\x7b\"code\":5,\"message\":\"oops\"\x7d\x7d"
    [("error", Json.obj [("code", Json.num 5), ("message", Json.str "oops")])]
    [("code", Json.num 5), ("message", Json.str "oops")]
    (Json.num 5) (Json.str "oops") rfl (by decide) rfl rfl rfl rfl).1 rfl

/-- Refutation of claim C3 as stated: on a successful exchange
`downloadTranslations` resolves with the raw response body string (here
the bytes of a ZIP file), not with a JSON-parsed value — `getApiRequest`
returns the bare `request(url)` promise without parsing. -/
theorem c3_counterexample :
    runOp { apiKey := some "K", baseUrl := "https://api.crowdin.com" }
      (Op.downloadTranslations "p" "de")
      (HttpOutcome.success "PK-zip-bytes")
      = Except.ok (ApiResult.raw "PK-zip-bytes") := rfl

/-- Claim C3 (amended): when no error occurs, operations routed through
`handleRequest` return the JSON-parsed response body, while
`downloadTranslations`, `downloadAllTranslations` and `downloadGlossary`
return the raw response body string. -/
theorem c3_success_returns (c : Config) (op : Op) (k body : String)
    (v : Json) (hkey : c.apiKey = some k)
    (hparse : jparse body = some v) :
    (usesRawGet op = false →
      runOp c op (HttpOutcome.success body)
        = Except.ok (ApiResult.json v)) ∧
    (usesRawGet op = true →
      runOp c op (HttpOutcome.success body)
        = Except.ok (ApiResult.raw body)) := by
  constructor
  · intro hop
    rw [runOp_not_raw c op k _ hkey hop]
    simp [handleRequest, hparse, Except.map]
  · intro hop
    rw [runOp_raw c op k _ hkey hop]

/-- Witness for the amended C3 at a concrete successful exchange. -/
theorem c3_success_returns_witness :
    runOp { apiKey := some "K", baseUrl := "https://api.crowdin.com" }
      Op.supportedLanguages
      (HttpOutcome.success "\x7b\"success\":true\x7d")
      = Except.ok (ApiResult.json (Json.obj [("success", Json.bool true)]))
    :=
  (c3_success_returns
    { apiKey := some "K", baseUrl := "https://api.crowdin.com" }
    Op.supportedLanguages "K" "\x7b\"success\":true\x7d"
    (Json.obj [("success", Json.bool true)]) rfl rfl).1 rfl

/-- Refutation of claim C6 as stated: the issued request is NOT
independent of prior `setKey` calls (two configurations differing only in
the stored key yield different requests for identical arguments), and
`createDirectory` mutates the caller's `params` object (an empty object
passed in holds `json` and `key` after the call). -/
theorem c6_counterexample :
    callOp { apiKey := some "K1", baseUrl := "https://api.crowdin.com" }
        (Op.projectInfo "p")
      ≠ callOp { apiKey := some "K2", baseUrl := "https://api.crowdin.com" }
          (Op.projectInfo "p")
    ∧ qsParamsAfter { apiKey := some "K", baseUrl := "https://api.crowdin.com" }
        (Op.createDirectory "p" "d" (some []))
      ≠ some [] := by
  constructor
  · decide
  · decide

/-- Claim C6 (amended): every public operation other than
`createDirectory` leaves the caller's params object exactly as it was
(`changeDirectory` drops it unread; no other operation takes one). -/
theorem c6_no_mutation_outside_createDirectory (c : Config) (op : Op)
    (h : ∀ p d ps, op ≠ Op.createDirectory p d ps) :
    qsParamsAfter c op = originalQsParams op := by
  cases op <;>
    first
      | rfl
      | exact absurd rfl (h _ _ _)

/-- Witness for the amended C6 at a concrete operation. -/
theorem c6_no_mutation_outside_createDirectory_witness :
    qsParamsAfter { apiKey := some "K", baseUrl := "B" }
        (Op.changeDirectory "p" "d" (some [("x", QVal.str "y")]))
      = originalQsParams
          (Op.changeDirectory "p" "d" (some [("x", QVal.str "y")])) :=
  c6_no_mutation_outside_createDirectory
    { apiKey := some "K", baseUrl := "B" }
    (Op.changeDirectory "p" "d" (some [("x", QVal.str "y")]))
    (fun _ _ _ h => Op.noConfusion h)

end Crowdin
